import Mathlib

/-!
Verification of the calendar-puzzle solver (calpuz.py): board representation,
piece rotation, placement with void pruning, and the backtracking search.
The Python source is shallowly embedded: the mutable 7x7 grid becomes a total
function from (row, col) to the integer cell value, in-place mutation becomes
explicit state passing, and the one fallible operation (indexed assignment in
setDate, which would raise in Python when out of bounds) returns an Option.
-/

namespace CalPuz

/-- A board grid: cell value at (row, col).  Values are Python integers:
0 = open, 9 = blocked, a positive piece id = occupied by that piece. -/
abbrev Grid := Nat → Nat → Int

/-- Point update of a grid cell, modelling `self.rows[r][c] = v`. -/
def setCell (g : Grid) (r c : Nat) (v : Int) : Grid :=
  fun r2 c2 => if r2 = r ∧ c2 = c then v else g r2 c2

/-- Point update of a Nat-indexed array, modelling `arr[i] = v`. -/
def updFn {α : Type} (f : Nat → α) (i : Nat) (v : α) : Nat → α :=
  fun j => if j = i then v else f j

/-- A puzzle piece: its stable 1-based id, the canonical matrix saved at
construction (`startRows`), the current rotated matrix (`rows`) and the
current rotation index, exactly the mutable state of the Python class. -/
structure Piece where
  id : Nat
  startRows : List (List Int)
  rows : List (List Int)
  rotation : Nat
deriving DecidableEq

/-- Current bounding-box width: `len(self.rows[0])`. -/
def width (p : Piece) : Nat := (p.rows.headD []).length

/-- Current bounding-box height: `len(self.rows)`. -/
def height (p : Piece) : Nat := p.rows.length

/-- Cell of the current piece matrix: `piece.rows[y][x]`. -/
def pieceAt (p : Piece) (y x : Nat) : Int := (p.rows.getD y []).getD x 0

/-- `Piece.reset`: restore the matrix saved at construction, rotation 0. -/
def resetP (p : Piece) : Piece := { p with rows := p.startRows, rotation := 0 }

/-- `Piece.rotate`: replace the matrix with its CCW rotation
(`newRows[nr][nc] = rows[nc][width - nr - 1]`) and advance the rotation
index modulo 4.  The Python method returns the new index, which is read
off the result as `.rotation`. -/
def rotate (p : Piece) : Piece :=
  { p with
    rows := (List.range (width p)).map (fun nr =>
      (List.range (height p)).map (fun nc =>
        (p.rows.getD nc []).getD (width p - nr - 1) 0)),
    rotation := (p.rotation + 1) % 4 }

/-- Piece construction: save the given matrix, then `reset()`. -/
def mkPiece (i : Nat) (rs : List (List Int)) : Piece :=
  { id := i, startRows := rs, rows := rs, rotation := 0 }

def piece1 : Piece := mkPiece 1 [[1,0,1],[1,1,1]]
def piece2 : Piece := mkPiece 2 [[0,0,1],[1,1,1],[1,0,0]]
def piece3 : Piece := mkPiece 3 [[1,1,1],[1,0,0],[1,0,0]]
def piece4 : Piece := mkPiece 4 [[0,0,1,1],[1,1,1,0]]
def piece5 : Piece := mkPiece 5 [[1,1,1,1],[1,0,0,0]]
def piece6 : Piece := mkPiece 6 [[1,1,1,1],[0,0,1,0]]
def piece7 : Piece := mkPiece 7 [[1,1,1],[0,1,1]]
def piece8 : Piece := mkPiece 8 [[1,1,1],[1,1,1]]

/-- The catalog `Piece.pieces`, in construction order (ids 1..8). -/
def pieces : List Piece :=
  [piece1, piece2, piece3, piece4, piece5, piece6, piece7, piece8]

/-- `Piece.nextPiece`: `idx = self.id % len(pieces)`; the piece at that
index when `idx > 0`, else `None`. -/
def nextPiece (p : Piece) : Option Piece :=
  if p.id % pieces.length > 0 then some (pieces.getD (p.id % pieces.length) piece1)
  else none

/-- `Board.linearFromCoord`: linear spot from (col, row). -/
def linearFromCoord (col row : Nat) : Nat := row * 7 + col

/-! ### smallestVoid -/

/-- The three local arrays of `Board.smallestVoid`. -/
structure SVState where
  groupId : Nat
  spotGroups : Nat → Int
  groupCounts : Nat → Nat

/-- Initial smallestVoid state: `groupId = 0`, `spotGroups = [-1]*49`,
`groupCounts = [0]*49`. -/
def initSV : SVState := ⟨0, fun _ => -1, fun _ => 0⟩

/-- One step of the column walk of `smallestVoid` at (cidx, ridx): start a
new group for a void in the first row or below a non-void, or join the
group of the void directly above. -/
def colStep (g : Grid) (st : SVState) (cidx ridx : Nat) : SVState :=
  if ridx = 0 then
    if g ridx cidx = 0 then
      { groupId := st.groupId + 1,
        spotGroups := updFn st.spotGroups (linearFromCoord cidx ridx) (st.groupId : Int),
        groupCounts := updFn st.groupCounts st.groupId 1 }
    else st
  else
    if g ridx cidx = 0 then
      if g (ridx - 1) cidx = 0 then
        { groupId := st.groupId,
          spotGroups := updFn st.spotGroups (linearFromCoord cidx ridx)
            (st.spotGroups (linearFromCoord cidx (ridx - 1))),
          groupCounts := updFn st.groupCounts
            (st.spotGroups (linearFromCoord cidx (ridx - 1))).toNat
            (st.groupCounts (st.spotGroups (linearFromCoord cidx (ridx - 1))).toNat + 1) }
      else
        { groupId := st.groupId + 1,
          spotGroups := updFn st.spotGroups (linearFromCoord cidx ridx) (st.groupId : Int),
          groupCounts := updFn st.groupCounts st.groupId 1 }
    else st

/-- The column walk: for each column, walk down its rows. -/
def colScan (g : Grid) : SVState :=
  (List.range 7).foldl (fun st cidx =>
    (List.range 7).foldl (fun st ridx => colStep g st cidx ridx) st) initSV

/-- Body of the combine loop of `smallestVoid`: if spot `i` belongs to
`fromGroup`, add one spot to the captured `toGroup` count and relabel
spot `i` with the current group of `ppos`. -/
def mergeStep (ppos : Nat) (toGroup fromGroup : Int) (s : SVState) (i : Nat) : SVState :=
  if s.spotGroups i = fromGroup then
    { s with
      groupCounts := updFn s.groupCounts toGroup.toNat (s.groupCounts toGroup.toNat + 1),
      spotGroups := updFn s.spotGroups i (s.spotGroups ppos) }
  else s

/-- The final statement of the combine branch: `groupCounts[fromGroup] = 0`. -/
def zeroCount (s : SVState) (fromGroup : Int) : SVState :=
  { s with groupCounts := updFn s.groupCounts fromGroup.toNat 0 }

/-- The combine loop of `smallestVoid` over all 49 spots, followed by the
zeroing of the count of the absorbed group. -/
def mergeAll (st : SVState) (ppos : Nat) (toGroup fromGroup : Int) : SVState :=
  zeroCount ((List.range 49).foldl (mergeStep ppos toGroup fromGroup) st) fromGroup

/-- One step of the row walk of `smallestVoid` at (ridx, cidx): when this
void and the void to its left (`toGroup = spotGroups[ppos]`,
`fromGroup = spotGroups[pos]`) are in different groups, fold the whole
group of this void into the group to the left and zero out its count. -/
def rowStep (g : Grid) (st : SVState) (ridx cidx : Nat) : SVState :=
  if g ridx cidx = 0 then
    if g ridx (cidx - 1) = 0 then
      if st.spotGroups (linearFromCoord cidx ridx)
          ≠ st.spotGroups (linearFromCoord (cidx - 1) ridx) then
        mergeAll st (linearFromCoord (cidx - 1) ridx)
          (st.spotGroups (linearFromCoord (cidx - 1) ridx))
          (st.spotGroups (linearFromCoord cidx ridx))
      else st
    else st
  else st

/-- The row walk: for each row, walk across columns 1..6. -/
def rowScan (g : Grid) (st : SVState) : SVState :=
  (List.range 7).foldl (fun st ridx =>
    (List.range' 1 6).foldl (fun st cidx => rowStep g st ridx cidx) st) st

/-- `sys.maxsize` on a 64-bit build. -/
def sysMaxsize : Nat := 2 ^ 63 - 1

/-- `Board.smallestVoid`: group contiguous voids and report the smallest
non-empty group count (or `sys.maxsize` when there is no void at all). -/
def smallestVoid (g : Grid) : Nat :=
  let st := rowScan g (colScan g)
  (List.range st.groupId).foldl (fun smallest i =>
    if st.groupCounts i ≠ 0 ∧ st.groupCounts i < smallest then st.groupCounts i
    else smallest) sysMaxsize

/-! ### place and remove -/

/-- The (y, x) piece-matrix coordinates scanned by the place/remove loops,
row-major: `for y in range(len(piece.rows)): for x in range(len(piece.rows[0]))`. -/
def cellCoords (p : Piece) : List (Nat × Nat) :=
  (List.range (height p)).flatMap (fun y => (List.range (width p)).map (fun x => (y, x)))

/-- The superimposing loop of `Board.place`: stop with `none` (the Python
code restores the saved copy and returns False) as soon as an occupied
piece cell meets a non-zero board cell, otherwise add
`piece.rows[y][x] * piece.id` into the board. -/
def stampCells (p : Piece) (x0 y0 : Nat) : List (Nat × Nat) → Grid → Option Grid
  | [], g => some g
  | (y, x) :: rest, g =>
    if pieceAt p y x ≠ 0 ∧ g (y0 + y) (x0 + x) ≠ 0 then none
    else stampCells p x0 y0 rest
      (setCell g (y0 + y) (x0 + x) (g (y0 + y) (x0 + x) + pieceAt p y x * (p.id : Int)))

/-- The subtracting loop of `Board.remove`. -/
def removeCells (p : Piece) (x0 y0 : Nat) : List (Nat × Nat) → Grid → Grid
  | [], g => g
  | (y, x) :: rest, g =>
    removeCells p x0 y0 rest
      (setCell g (y0 + y) (x0 + x) (g (y0 + y) (x0 + x) - pieceAt p y x * (p.id : Int)))

/-- `Board.remove`: subtract the piece pattern at the linear position. -/
def removeGrid (g : Grid) (p : Piece) (pos : Nat) : Grid :=
  removeCells p (pos % 7) (pos / 7) (cellCoords p) g

/-- `MIN_VOID_COUNT`: the smallest part overlaps 5 spots. -/
def minVoidCount : Nat := 5

/-- `Board.place`: reject when the piece rectangle leaves the 7x7 board;
superimpose the piece, rejecting (with the board restored) on any overlap;
then reject (removing the piece again) when the smallest void left is
below `MIN_VOID_COUNT`.  Returns the Python boolean with the board state. -/
def place (g : Grid) (p : Piece) (pos : Nat) : Bool × Grid :=
  let x0 := pos % 7
  let y0 := pos / 7
  if 7 < x0 + width p ∨ 7 < y0 + height p then (false, g)
  else
    match stampCells p x0 y0 (cellCoords p) g with
    | none => (false, g)
    | some h => if smallestVoid h < minVoidCount then (false, removeGrid h p pos) else (true, h)

/-- `Board.isBoardValid`: scan all spots, False as soon as one exceeds 1. -/
def isBoardValid (g : Grid) : Bool :=
  (List.range 7).all (fun r => (List.range 7).all (fun c => decide (g r c ≤ 1)))

/-! ### Board construction -/

/-- The fixed unusable spots established by `Board.reset`. -/
def baseGrid : Grid := fun r c =>
  if (r = 0 ∧ c = 6) ∨ (r = 1 ∧ c = 6) ∨
     (r = 6 ∧ (c = 3 ∨ c = 4 ∨ c = 5 ∨ c = 6)) then 9 else 0

/-- An indexed assignment `self.rows[r][c] = 9`, which in Python raises when
the indices leave the 7x7 array: `none` models that failure. -/
def setNineChecked (g : Grid) (r c : Nat) : Option Grid :=
  if r < 7 ∧ c < 7 then some (setCell g r c 9) else none

/-- `Board.setDate`: mark the month spot `rows[m/6][m%6]` and the day spot
`rows[2 + d/7][d%7]` with 9, where `m`/`d` are the 0-based month and day. -/
def setDate (month day : Nat) (g : Grid) : Option Grid :=
  let m := month - 1
  let d := day - 1
  match setNineChecked g (m / 6) (m % 6) with
  | none => none
  | some g1 => setNineChecked g1 (2 + d / 7) (d % 7)

/-! ### The search engine fit -/

/-- The rotation loop of `fit` at one position: try the current piece state,
rotating after each failure, at most `m` more rotations (`m = 4` at each
fresh position).  On a successful placement, recurse through `rec` on the
next catalog piece, undoing the placement and rotating when the recursion
fails; succeed outright when this was the last piece.  `none` propagates
fuel exhaustion of `rec`. -/
def fitRots (rec : Grid → Piece → Option (Bool × Grid)) (pos : Nat) :
    Nat → Grid → Piece → Option (Bool × Grid)
  | 0, g, _ => some (false, g)
  | m + 1, g, pr =>
    let res := place g pr pos
    if res.1 then
      match nextPiece pr with
      | some np =>
        match rec res.2 np with
        | none => none
        | some (true, g2) => some (true, g2)
        | some (false, g2) => fitRots rec pos m (removeGrid g2 pr pos) (rotate pr)
      | none => some (true, res.2)
    else
      fitRots rec pos m g (rotate pr)

/-- The position loop of `fit`: at each linear position, reset the piece and
run the four-rotation loop; a success propagates, a failure moves to the
next position with the (restored) board it returned. -/
def fitPoss (rec : Grid → Piece → Option (Bool × Grid)) :
    List Nat → Grid → Piece → Option (Bool × Grid)
  | [], g, _ => some (false, g)
  | pos :: rest, g, p =>
    match fitRots rec pos 4 g (resetP p) with
    | none => none
    | some (true, g2) => some (true, g2)
    | some (false, g2) => fitPoss rec rest g2 p

/-- `fit`, with an explicit bound on the recursion depth: `fitFuel (n+1)`
runs one level of the position/rotation loops, recursing through
`fitFuel n`; `none` reports that the depth bound was hit. -/
def fitFuel : Nat → Grid → Piece → Option (Bool × Grid)
  | 0, _, _ => none
  | n + 1, g, p => fitPoss (fitFuel n) (List.range 49) g p

/-! ### Boards used in concrete statements -/

/-- The empty board: all 49 cells open, no blocked spots. -/
def zeroGrid : Grid := fun _ _ => 0

/-- A fully non-open board. -/
def nineGrid : Grid := fun _ _ => 9

/-- A board whose single open cell (3,3) is surrounded by non-zero cells. -/
def isoGrid : Grid := fun r c => if r = 3 ∧ c = 3 then 0 else 9

/-- The board produced by `Board.reset` for the date 1/1. -/
def boardJan1 : Grid := (setDate 1 1 baseGrid).getD baseGrid

/-- A cell (r, c) of the board is an open cell each of whose four neighbours
inside the 7x7 board is non-zero: the non-zero cells fully isolate it. -/
def isolatedCell (g : Grid) (r c : Nat) : Prop :=
  r < 7 ∧ c < 7 ∧ g r c = 0 ∧
  (r = 0 ∨ g (r - 1) c ≠ 0) ∧ (r = 6 ∨ g (r + 1) c ≠ 0) ∧
  (c = 0 ∨ g r (c - 1) ≠ 0) ∧ (c = 6 ∨ g r (c + 1) ≠ 0)

/-- Net contribution of the scanned piece cells `l` to board cell (r, c):
each (y, x) in `l` that lands on (r, c) contributes `rows[y][x] * id`. -/
def cellSum (p : Piece) (x0 y0 : Nat) : List (Nat × Nat) → Nat → Nat → Int
  | [], _, _ => 0
  | (y, x) :: rest, r, c =>
    (if r = y0 + y ∧ c = x0 + x then pieceAt p y x * (p.id : Int) else 0) +
      cellSum p x0 y0 rest r c

/-! ### Views of the smallestVoid scans, used to reason about them piecewise -/

/-- The inner loop of the column walk: process one full column. -/
def colBody (g : Grid) (st : SVState) (cidx : Nat) : SVState :=
  (List.range 7).foldl (fun st ridx => colStep g st cidx ridx) st

/-- Rows `a, a+1, ..., a+n-1` of the column walk on column `cidx`. -/
def colRowsFrom (g : Grid) (cidx a n : Nat) (st : SVState) : SVState :=
  (List.range' a n).foldl (fun st ridx => colStep g st cidx ridx) st

/-- Columns `a, a+1, ..., a+n-1` of the column walk, each in full. -/
def colsFrom (g : Grid) (a n : Nat) (st : SVState) : SVState :=
  (List.range' a n).foldl (colBody g) st

/-- The inner loop of the row walk: process one full row. -/
def rowBody (g : Grid) (st : SVState) (ridx : Nat) : SVState :=
  (List.range' 1 6).foldl (fun st cidx => rowStep g st ridx cidx) st

/-- All spot groups assigned so far are below the running group counter. -/
def svG (st : SVState) : Prop := ∀ i, st.spotGroups i < (st.groupId : Int)

/-- Group `gid` is a live group holding exactly the single spot (r, c). -/
def svK (r c gid : Nat) (st : SVState) : Prop :=
  gid < st.groupId ∧
  st.spotGroups (r * 7 + c) = (gid : Int) ∧
  st.groupCounts gid = 1 ∧
  ∀ i, st.spotGroups i = (gid : Int) → i = r * 7 + c

/-- Every open board cell has been assigned some (non-sentinel) group. -/
def svW (g : Grid) (st : SVState) : Prop :=
  ∀ r2 c2, r2 < 7 → c2 < 7 → g r2 c2 = 0 → 0 ≤ st.spotGroups (r2 * 7 + c2)

/-! ## Lemmas -/

lemma range'_split (a m n : Nat) :
    List.range' a (m + n) = List.range' a m ++ List.range' (a + m) n := by
  have h := List.range'_append a m n 1
  simp only [one_mul] at h
  rw [Nat.add_comm m n]
  exact h.symm

lemma foldl_inv {α β : Type} {f : α → β → α} {P : α → Prop} :
    ∀ (l : List β) (a : α), P a → (∀ b x, x ∈ l → P b → P (f b x)) → P (l.foldl f a) := by
  intro l
  induction l with
  | nil => intro a ha _; simp only [List.foldl_nil]; exact ha
  | cons x xs ih =>
    intro a ha hstep
    simp only [List.foldl_cons]
    exact ih _ (hstep a x (by simp) ha) (fun b y hy hb => hstep b y (by simp [hy]) hb)

/-! ### Pointwise description of the stamping and removing loops -/

lemma stampCells_pointwise (p : Piece) (x0 y0 : Nat) :
    ∀ (l : List (Nat × Nat)) (g h : Grid), stampCells p x0 y0 l g = some h →
      ∀ r c, h r c = g r c + cellSum p x0 y0 l r c := by
  intro l
  induction l with
  | nil =>
    intro g h hs r c
    simp only [stampCells, Option.some.injEq] at hs
    subst hs
    simp [cellSum]
  | cons a rest ih =>
    intro g h hs r c
    obtain ⟨y, x⟩ := a
    simp only [stampCells] at hs
    split at hs
    · exact absurd hs (by simp)
    · have hrest := ih _ _ hs r c
      rw [hrest]
      simp only [cellSum, setCell]
      by_cases hrc : r = y0 + y ∧ c = x0 + x
      · obtain ⟨h1, h2⟩ := hrc
        subst h1; subst h2
        simp only [and_self, if_pos]
        ring
      · simp only [hrc, if_neg, if_false]
        ring

lemma removeCells_pointwise (p : Piece) (x0 y0 : Nat) :
    ∀ (l : List (Nat × Nat)) (g : Grid) (r c : Nat),
      removeCells p x0 y0 l g r c = g r c - cellSum p x0 y0 l r c := by
  intro l
  induction l with
  | nil => intro g r c; simp [removeCells, cellSum]
  | cons a rest ih =>
    intro g r c
    obtain ⟨y, x⟩ := a
    simp only [removeCells]
    rw [ih]
    simp only [cellSum, setCell]
    by_cases hrc : r = y0 + y ∧ c = x0 + x
    · obtain ⟨h1, h2⟩ := hrc
      subst h1; subst h2
      simp only [and_self, if_pos]
      ring
    · simp only [hrc, if_neg, if_false]
      ring

lemma removeCells_stampCells (p : Piece) (x0 y0 : Nat) (l : List (Nat × Nat)) (g h : Grid)
    (hs : stampCells p x0 y0 l g = some h) : removeCells p x0 y0 l h = g := by
  funext r c
  rw [removeCells_pointwise, stampCells_pointwise p x0 y0 l g h hs]
  ring

/-! ### Behaviour of place -/

lemma place_false_eq (g : Grid) (p : Piece) (pos : Nat)
    (h : (place g p pos).1 = false) : (place g p pos).2 = g := by
  by_cases hb : 7 < pos % 7 + width p ∨ 7 < pos / 7 + height p
  · simp [place, hb]
  · cases hst : stampCells p (pos % 7) (pos / 7) (cellCoords p) g with
    | none => simp [place, hb, hst]
    | some h2 =>
      by_cases hv : smallestVoid h2 < minVoidCount
      · simp only [place, hb, if_false, hst, hv, if_true, if_pos]
        exact removeCells_stampCells p (pos % 7) (pos / 7) (cellCoords p) g h2 hst
      · exfalso
        simp [place, hb, hst, hv] at h

lemma place_true_remove (g : Grid) (p : Piece) (pos : Nat)
    (h : (place g p pos).1 = true) : removeGrid (place g p pos).2 p pos = g := by
  by_cases hb : 7 < pos % 7 + width p ∨ 7 < pos / 7 + height p
  · exfalso; simp [place, hb] at h
  · cases hst : stampCells p (pos % 7) (pos / 7) (cellCoords p) g with
    | none => exfalso; simp [place, hb, hst] at h
    | some h2 =>
      by_cases hv : smallestVoid h2 < minVoidCount
      · exfalso; simp [place, hb, hst, hv] at h
      · simp only [place, hb, if_false, hst, hv, if_neg]
        exact removeCells_stampCells p (pos % 7) (pos / 7) (cellCoords p) g h2 hst

/-! ### The search never changes the board when it fails -/

lemma fitRots_false (rec : Grid → Piece → Option (Bool × Grid)) (pos : Nat)
    (hrec : ∀ g q g2, rec g q = some (false, g2) → g2 = g) :
    ∀ (m : Nat) (g : Grid) (pr : Piece) (g2 : Grid),
      fitRots rec pos m g pr = some (false, g2) → g2 = g := by
  intro m
  induction m with
  | zero =>
    intro g pr g2 h
    simp only [fitRots, Option.some.injEq, Prod.mk.injEq] at h
    exact h.2.symm
  | succ m ih =>
    intro g pr g2 h
    simp only [fitRots] at h
    split at h
    · split at h
      · split at h
        · exact absurd h (by simp)
        · exact absurd h (by simp)
        · rename_i hp x1 np hnp x2 g3 hrc
          have h3 : g3 = (place g pr pos).2 := hrec _ _ _ hrc
          have h4 : removeGrid g3 pr pos = g := by
            rw [h3]; exact place_true_remove g pr pos hp
          rw [ih _ _ _ h, h4]
      · exact absurd h (by simp)
    · exact ih _ _ _ h

lemma fitPoss_false (rec : Grid → Piece → Option (Bool × Grid))
    (hrec : ∀ g q g2, rec g q = some (false, g2) → g2 = g) :
    ∀ (l : List Nat) (g : Grid) (p : Piece) (g2 : Grid),
      fitPoss rec l g p = some (false, g2) → g2 = g := by
  intro l
  induction l with
  | nil =>
    intro g p g2 h
    simp only [fitPoss, Option.some.injEq, Prod.mk.injEq] at h
    exact h.2.symm
  | cons pos rest ih =>
    intro g p g2 h
    simp only [fitPoss] at h
    split at h
    · exact absurd h (by simp)
    · exact absurd h (by simp)
    · rename_i g3 hr
      rw [ih _ _ _ h, fitRots_false rec pos hrec 4 g (resetP p) g3 hr]

lemma fitFuel_false :
    ∀ (f : Nat) (g : Grid) (p : Piece) (g2 : Grid),
      fitFuel f g p = some (false, g2) → g2 = g := by
  intro f
  induction f with
  | zero => intro g p g2 h; simp [fitFuel] at h
  | succ n ih =>
    intro g p g2 h
    exact fitPoss_false (fitFuel n) (fun g q g2 h2 => ih g q g2 h2) _ _ _ _ h

/-! ### The search always returns within the catalog depth bound -/

lemma nextPiece_congr (p q : Piece) (h : p.id = q.id) : nextPiece p = nextPiece q := by
  unfold nextPiece
  rw [h]

lemma fitRots_isSome (rec : Grid → Piece → Option (Bool × Grid)) (pos : Nat) (p0 : Piece)
    (hrec : ∀ g2 np, nextPiece p0 = some np → (rec g2 np).isSome = true) :
    ∀ (m : Nat) (g : Grid) (pr : Piece), pr.id = p0.id →
      (fitRots rec pos m g pr).isSome = true := by
  intro m
  induction m with
  | zero => intro g pr _; simp [fitRots]
  | succ m ih =>
    intro g pr hid
    simp only [fitRots]
    split
    · split
      · rename_i np hnp
        have hnp0 : nextPiece p0 = some np := by
          rw [← nextPiece_congr pr p0 hid]; exact hnp
        obtain ⟨res, hr⟩ := Option.isSome_iff_exists.mp (hrec (place g pr pos).2 np hnp0)
        obtain ⟨b, g3⟩ := res
        rw [hr]
        cases b
        · exact ih _ _ (by rw [show (rotate pr).id = pr.id from rfl]; exact hid)
        · rfl
      · rfl
    · exact ih _ _ (by rw [show (rotate pr).id = pr.id from rfl]; exact hid)

lemma fitPoss_isSome (rec : Grid → Piece → Option (Bool × Grid)) (p0 : Piece)
    (hrec : ∀ g2 np, nextPiece p0 = some np → (rec g2 np).isSome = true) :
    ∀ (l : List Nat) (g : Grid) (p : Piece), p.id = p0.id →
      (fitPoss rec l g p).isSome = true := by
  intro l
  induction l with
  | nil => intro g p _; simp [fitPoss]
  | cons pos rest ih =>
    intro g p hid
    simp only [fitPoss]
    have hs := fitRots_isSome rec pos p0 hrec 4 g (resetP p)
      (by rw [show (resetP p).id = p.id from rfl]; exact hid)
    obtain ⟨res, hr⟩ := Option.isSome_iff_exists.mp hs
    obtain ⟨b, g3⟩ := res
    rw [hr]
    cases b
    · exact ih _ _ hid
    · rfl

lemma fitFuel_succ_isSome (n : Nat) (p : Piece)
    (hrec : ∀ g2 np, nextPiece p = some np → (fitFuel n g2 np).isSome = true) :
    ∀ g : Grid, (fitFuel (n + 1) g p).isSome = true := by
  intro g
  exact fitPoss_isSome (fitFuel n) p hrec (List.range 49) g p rfl

lemma fitFuel_piece8 : ∀ g : Grid, (fitFuel 1 g piece8).isSome = true :=
  fitFuel_succ_isSome 0 piece8 (fun g2 np h => by
    rw [show nextPiece piece8 = none from rfl] at h; cases h)

lemma fitFuel_piece7 : ∀ g : Grid, (fitFuel 2 g piece7).isSome = true :=
  fitFuel_succ_isSome 1 piece7 (fun g2 np h => by
    rw [show nextPiece piece7 = some piece8 from rfl] at h
    cases h
    exact fitFuel_piece8 g2)

lemma fitFuel_piece6 : ∀ g : Grid, (fitFuel 3 g piece6).isSome = true :=
  fitFuel_succ_isSome 2 piece6 (fun g2 np h => by
    rw [show nextPiece piece6 = some piece7 from rfl] at h
    cases h
    exact fitFuel_piece7 g2)

lemma fitFuel_piece5 : ∀ g : Grid, (fitFuel 4 g piece5).isSome = true :=
  fitFuel_succ_isSome 3 piece5 (fun g2 np h => by
    rw [show nextPiece piece5 = some piece6 from rfl] at h
    cases h
    exact fitFuel_piece6 g2)

lemma fitFuel_piece4 : ∀ g : Grid, (fitFuel 5 g piece4).isSome = true :=
  fitFuel_succ_isSome 4 piece4 (fun g2 np h => by
    rw [show nextPiece piece4 = some piece5 from rfl] at h
    cases h
    exact fitFuel_piece5 g2)

lemma fitFuel_piece3 : ∀ g : Grid, (fitFuel 6 g piece3).isSome = true :=
  fitFuel_succ_isSome 5 piece3 (fun g2 np h => by
    rw [show nextPiece piece3 = some piece4 from rfl] at h
    cases h
    exact fitFuel_piece4 g2)

lemma fitFuel_piece2 : ∀ g : Grid, (fitFuel 7 g piece2).isSome = true :=
  fitFuel_succ_isSome 6 piece2 (fun g2 np h => by
    rw [show nextPiece piece2 = some piece3 from rfl] at h
    cases h
    exact fitFuel_piece3 g2)

lemma fitFuel_piece1 : ∀ g : Grid, (fitFuel 8 g piece1).isSome = true :=
  fitFuel_succ_isSome 7 piece1 (fun g2 np h => by
    rw [show nextPiece piece1 = some piece2 from rfl] at h
    cases h
    exact fitFuel_piece2 g2)

/-! ### setDate stays within the board -/

lemma setDate_isSome (g : Grid) (month day : Nat) (h1 : 1 ≤ month) (h2 : month ≤ 12)
    (h3 : 1 ≤ day) (h4 : day ≤ 31) : (setDate month day g).isSome = true := by
  have hm1 : (month - 1) / 6 < 7 := by omega
  have hm2 : (month - 1) % 6 < 7 := by omega
  have hd1 : 2 + (day - 1) / 7 < 7 := by omega
  have hd2 : (day - 1) % 7 < 7 := by omega
  simp [setDate, setNineChecked, hm1, hm2, hd1, hd2]

/-! ### Invariants of the smallestVoid column walk -/

lemma colStep_G (g : Grid) (st : SVState) (cidx ridx : Nat) (hG : svG st) :
    svG (colStep g st cidx ridx) := by
  have hstep : (st.groupId : Int) < ((st.groupId + 1 : Nat) : Int) := by
    exact_mod_cast Nat.lt_succ_self st.groupId
  intro i
  unfold colStep linearFromCoord
  split
  · split
    · simp only [updFn]
      split
      · exact hstep
      · exact lt_trans (hG i) hstep
    · exact hG i
  · split
    · split
      · simp only [updFn]
        split
        · exact hG _
        · exact hG i
      · simp only [updFn]
        split
        · exact hstep
        · exact lt_trans (hG i) hstep
    · exact hG i

lemma colStep_sg_frame (g : Grid) (st : SVState) (cidx ridx i : Nat)
    (hne : i ≠ ridx * 7 + cidx) :
    (colStep g st cidx ridx).spotGroups i = st.spotGroups i := by
  unfold colStep linearFromCoord
  split
  · split
    · simp [updFn, hne]
    · rfl
  · split
    · split
      · simp [updFn, hne]
      · simp [updFn, hne]
    · rfl

lemma colStep_assign (g : Grid) (cidx ridx : Nat) (st : SVState)
    (hz : g ridx cidx = 0)
    (habove : ridx ≠ 0 → g (ridx - 1) cidx = 0 →
      0 ≤ st.spotGroups ((ridx - 1) * 7 + cidx)) :
    0 ≤ (colStep g st cidx ridx).spotGroups (ridx * 7 + cidx) := by
  unfold colStep linearFromCoord
  split
  · simp [updFn]
  · rename_i hr0
    split
    · rename_i ha
      simp only [updFn, if_pos rfl]
      exact habove hr0 ha
    · simp [updFn]

lemma colStep_K (g : Grid) (r c gid : Nat) (hiso : isolatedCell g r c)
    (st : SVState) (cidx ridx : Nat) (hcb : cidx < 7) (hrb : ridx < 7)
    (hne : ¬(ridx = r ∧ cidx = c))
    (habove : ridx ≠ 0 → g ridx cidx = 0 → g (ridx - 1) cidx = 0 →
      0 ≤ st.spotGroups ((ridx - 1) * 7 + cidx))
    (hK : svK r c gid st) (_hG : svG st) :
    svK r c gid (colStep g st cidx ridx) := by
  obtain ⟨hrlt, hclt, hopen, hup, hdown, hleft, hright⟩ := hiso
  obtain ⟨hk1, hk2, hk3, hk4⟩ := hK
  have hpos_ne : r * 7 + c ≠ ridx * 7 + cidx := fun hcontra =>
    hne ⟨by omega, by omega⟩
  unfold colStep linearFromCoord
  split
  · -- first row of the column
    split
    · refine ⟨?_, ?_, ?_, ?_⟩
      · show gid < st.groupId + 1
        omega
      · show updFn st.spotGroups (ridx * 7 + cidx) (st.groupId : Int) (r * 7 + c) = (gid : Int)
        simp only [updFn, if_neg hpos_ne]
        exact hk2
      · show updFn st.groupCounts st.groupId 1 gid = 1
        simp only [updFn, if_neg (by omega : gid ≠ st.groupId)]
        exact hk3
      · intro i hi
        simp only [updFn] at hi
        by_cases h2 : i = ridx * 7 + cidx
        · rw [if_pos h2] at hi
          exfalso
          have hcast : st.groupId = gid := by exact_mod_cast hi
          omega
        · rw [if_neg h2] at hi
          exact hk4 i hi
    · exact ⟨hk1, hk2, hk3, hk4⟩
  · rename_i hr0
    split
    · rename_i hz
      split
      · -- join the group of the void above
        rename_i ha
        have hppos_ne : (ridx - 1) * 7 + cidx ≠ r * 7 + c := by
          intro hcontra
          have hcc : cidx = c := by omega
          have hr2 : ridx = r + 1 := by omega
          subst hcc
          rw [hr2] at hz
          rcases hdown with h6 | hnz
          · omega
          · exact hnz hz
        have hsg_ne : st.spotGroups ((ridx - 1) * 7 + cidx) ≠ (gid : Int) := by
          intro hcontra
          exact hppos_ne (hk4 _ hcontra)
        have hnn : 0 ≤ st.spotGroups ((ridx - 1) * 7 + cidx) := habove hr0 hz ha
        have htoNat : (st.spotGroups ((ridx - 1) * 7 + cidx)).toNat ≠ gid := by
          intro hcontra
          apply hsg_ne
          rw [← hcontra]
          exact (Int.toNat_of_nonneg hnn).symm
        refine ⟨hk1, ?_, ?_, ?_⟩
        · show updFn st.spotGroups (ridx * 7 + cidx)
            (st.spotGroups ((ridx - 1) * 7 + cidx)) (r * 7 + c) = (gid : Int)
          simp only [updFn, if_neg hpos_ne]
          exact hk2
        · show updFn st.groupCounts (st.spotGroups ((ridx - 1) * 7 + cidx)).toNat
            (st.groupCounts (st.spotGroups ((ridx - 1) * 7 + cidx)).toNat + 1) gid = 1
          have hgid_ne : gid ≠ (st.spotGroups ((ridx - 1) * 7 + cidx)).toNat :=
            fun h2 => htoNat h2.symm
          simp only [updFn, if_neg hgid_ne]
          exact hk3
        · intro i hi
          simp only [updFn] at hi
          by_cases h2 : i = ridx * 7 + cidx
          · rw [if_pos h2] at hi
            exact absurd hi hsg_ne
          · rw [if_neg h2] at hi
            exact hk4 i hi
      · -- start a new group below a non-void
        refine ⟨?_, ?_, ?_, ?_⟩
        · show gid < st.groupId + 1
          omega
        · show updFn st.spotGroups (ridx * 7 + cidx) (st.groupId : Int) (r * 7 + c) = (gid : Int)
          simp only [updFn, if_neg hpos_ne]
          exact hk2
        · show updFn st.groupCounts st.groupId 1 gid = 1
          simp only [updFn, if_neg (by omega : gid ≠ st.groupId)]
          exact hk3
        · intro i hi
          simp only [updFn] at hi
          by_cases h2 : i = ridx * 7 + cidx
          · rw [if_pos h2] at hi
            exfalso
            have hcast : st.groupId = gid := by exact_mod_cast hi
            omega
          · rw [if_neg h2] at hi
            exact hk4 i hi
    · exact ⟨hk1, hk2, hk3, hk4⟩

lemma colStep_est (g : Grid) (r c : Nat) (hiso : isolatedCell g r c)
    (st : SVState) (hG : svG st) :
    svK r c st.groupId (colStep g st c r) := by
  obtain ⟨hrlt, hclt, hopen, hup, hdown, hleft, hright⟩ := hiso
  have hfresh : ∀ i, st.spotGroups i ≠ (st.groupId : Int) := by
    intro i hcontra
    have hgi := hG i
    omega
  unfold colStep linearFromCoord
  split
  · refine ⟨?_, ?_, ?_, ?_⟩
    · show st.groupId < st.groupId + 1
      omega
    · simp [updFn]
    · simp [updFn]
    · intro i hi
      simp only [updFn] at hi
      by_cases h2 : i = r * 7 + c
      · exact h2
      · rw [if_neg h2] at hi
        exact absurd hi (hfresh i)
  · rename_i hr0
    have hnz : g (r - 1) c ≠ 0 := by
      rcases hup with h0 | hnz
      · exact absurd h0 hr0
      · exact hnz
    rw [if_neg hnz]
    refine ⟨?_, ?_, ?_, ?_⟩
    · show st.groupId < st.groupId + 1
      omega
    · simp [updFn]
    · simp [updFn]
    · intro i hi
      simp only [updFn] at hi
      by_cases h2 : i = r * 7 + c
      · exact h2
      · rw [if_neg h2] at hi
        exact absurd hi (hfresh i)

/-! ### Running the column walk piecewise -/

lemma colRowsFrom_succ (g : Grid) (cidx a n : Nat) (st : SVState) :
    colRowsFrom g cidx a (n + 1) st = colRowsFrom g cidx (a + 1) n (colStep g st cidx a) := by
  unfold colRowsFrom
  rw [List.range'_succ]
  rfl

lemma colRowsFrom_split (g : Grid) (cidx a m n : Nat) (st : SVState) :
    colRowsFrom g cidx a (m + n) st
      = colRowsFrom g cidx (a + m) n (colRowsFrom g cidx a m st) := by
  unfold colRowsFrom
  rw [range'_split, List.foldl_append]

lemma colsFrom_succ (g : Grid) (a n : Nat) (st : SVState) :
    colsFrom g a (n + 1) st = colsFrom g (a + 1) n (colBody g st a) := by
  unfold colsFrom
  rw [List.range'_succ]
  rfl

lemma colsFrom_split (g : Grid) (a m n : Nat) (st : SVState) :
    colsFrom g a (m + n) st = colsFrom g (a + m) n (colsFrom g a m st) := by
  unfold colsFrom
  rw [range'_split, List.foldl_append]

lemma colBody_eq (g : Grid) (st : SVState) (cidx : Nat) :
    colBody g st cidx = colRowsFrom g cidx 0 7 st := by
  unfold colBody colRowsFrom
  rw [List.range_eq_range']

lemma colScan_eq_colsFrom (g : Grid) : colScan g = colsFrom g 0 7 initSV := by
  unfold colScan colsFrom colBody
  rw [List.range_eq_range']

lemma colRows_WG (g : Grid) (cidx : Nat) :
    ∀ (n a : Nat) (st : SVState), svG st →
      (∀ r2, r2 < a → g r2 cidx = 0 → 0 ≤ st.spotGroups (r2 * 7 + cidx)) →
      svG (colRowsFrom g cidx a n st) ∧
      (∀ r2, r2 < a + n → g r2 cidx = 0 →
        0 ≤ (colRowsFrom g cidx a n st).spotGroups (r2 * 7 + cidx)) ∧
      (∀ i, (∀ ridx, a ≤ ridx → ridx < a + n → i ≠ ridx * 7 + cidx) →
        (colRowsFrom g cidx a n st).spotGroups i = st.spotGroups i) := by
  intro n
  induction n with
  | zero =>
    intro a st hG hW
    exact ⟨hG, fun r2 h hz => hW r2 (by omega) hz, fun i _ => rfl⟩
  | succ n ih =>
    intro a st hG hW
    rw [colRowsFrom_succ]
    have hG1 : svG (colStep g st cidx a) := colStep_G g st cidx a hG
    have hW1 : ∀ r2, r2 < a + 1 → g r2 cidx = 0 →
        0 ≤ (colStep g st cidx a).spotGroups (r2 * 7 + cidx) := by
      intro r2 hr2 hz
      by_cases h2 : r2 = a
      · subst h2
        exact colStep_assign g cidx r2 st hz
          (fun h0 hza => hW (r2 - 1) (by omega) hza)
      · rw [colStep_sg_frame g st cidx a _ (by intro hcontra; apply h2; omega)]
        exact hW r2 (by omega) hz
    obtain ⟨hG2, hW2, hF2⟩ := ih (a + 1) (colStep g st cidx a) hG1 hW1
    refine ⟨hG2, ?_, ?_⟩
    · intro r2 hr2 hz
      exact hW2 r2 (by omega) hz
    · intro i hf
      rw [hF2 i (fun ridx h1 h2 => hf ridx (by omega) (by omega)),
        colStep_sg_frame g st cidx a i (hf a (by omega) (by omega))]

lemma colRows_K (g : Grid) (r c gid : Nat) (hiso : isolatedCell g r c) (cidx : Nat)
    (hcb : cidx < 7) :
    ∀ (n a : Nat) (st : SVState), a + n ≤ 7 →
      (∀ ridx, a ≤ ridx → ridx < a + n → ¬(ridx = r ∧ cidx = c)) →
      svK r c gid st → svG st →
      (∀ r2, r2 < a → g r2 cidx = 0 → 0 ≤ st.spotGroups (r2 * 7 + cidx)) →
      svK r c gid (colRowsFrom g cidx a n st) ∧
      svG (colRowsFrom g cidx a n st) ∧
      (∀ r2, r2 < a + n → g r2 cidx = 0 →
        0 ≤ (colRowsFrom g cidx a n st).spotGroups (r2 * 7 + cidx)) ∧
      (∀ i, (∀ ridx, a ≤ ridx → ridx < a + n → i ≠ ridx * 7 + cidx) →
        (colRowsFrom g cidx a n st).spotGroups i = st.spotGroups i) := by
  intro n
  induction n with
  | zero =>
    intro a st _ _ hK hG hW
    exact ⟨hK, hG, fun r2 h hz => hW r2 (by omega) hz, fun i _ => rfl⟩
  | succ n ih =>
    intro a st hle hne hK hG hW
    rw [colRowsFrom_succ]
    have hK1 : svK r c gid (colStep g st cidx a) :=
      colStep_K g r c gid hiso st cidx a hcb (by omega) (hne a (by omega) (by omega))
        (fun h0 hz hza => hW (a - 1) (by omega) hza) hK hG
    have hG1 : svG (colStep g st cidx a) := colStep_G g st cidx a hG
    have hW1 : ∀ r2, r2 < a + 1 → g r2 cidx = 0 →
        0 ≤ (colStep g st cidx a).spotGroups (r2 * 7 + cidx) := by
      intro r2 hr2 hz
      by_cases h2 : r2 = a
      · subst h2
        exact colStep_assign g cidx r2 st hz
          (fun h0 hza => hW (r2 - 1) (by omega) hza)
      · rw [colStep_sg_frame g st cidx a _ (by intro hcontra; apply h2; omega)]
        exact hW r2 (by omega) hz
    obtain ⟨hK2, hG2, hW2, hF2⟩ := ih (a + 1) (colStep g st cidx a) (by omega)
      (fun ridx h1 h2 => hne ridx (by omega) (by omega)) hK1 hG1 hW1
    refine ⟨hK2, hG2, fun r2 hr2 hz => hW2 r2 (by omega) hz, ?_⟩
    intro i hf
    rw [hF2 i (fun ridx h1 h2 => hf ridx (by omega) (by omega)),
      colStep_sg_frame g st cidx a i (hf a (by omega) (by omega))]

lemma colsFrom_WG (g : Grid) :
    ∀ (n a : Nat) (st : SVState), a + n ≤ 7 → svG st →
      (∀ r2 c2, r2 < 7 → c2 < a → g r2 c2 = 0 → 0 ≤ st.spotGroups (r2 * 7 + c2)) →
      svG (colsFrom g a n st) ∧
      (∀ r2 c2, r2 < 7 → c2 < a + n → g r2 c2 = 0 →
        0 ≤ (colsFrom g a n st).spotGroups (r2 * 7 + c2)) ∧
      (∀ i, (∀ ridx cidx2, ridx < 7 → a ≤ cidx2 → cidx2 < a + n → i ≠ ridx * 7 + cidx2) →
        (colsFrom g a n st).spotGroups i = st.spotGroups i) := by
  intro n
  induction n with
  | zero =>
    intro a st _ hG hW
    exact ⟨hG, fun r2 c2 h1 h2 hz => hW r2 c2 h1 (by omega) hz, fun i _ => rfl⟩
  | succ n ih =>
    intro a st hle hG hW
    rw [colsFrom_succ, colBody_eq]
    obtain ⟨hG1, hW1, hF1⟩ := colRows_WG g a 7 0 st hG (fun r2 h _ => absurd h (by omega))
    have hWnew : ∀ r2 c2, r2 < 7 → c2 < a + 1 → g r2 c2 = 0 →
        0 ≤ (colRowsFrom g a 0 7 st).spotGroups (r2 * 7 + c2) := by
      intro r2 c2 hr2 hc2 hz
      by_cases h2 : c2 = a
      · subst h2
        exact hW1 r2 (by omega) hz
      · rw [hF1 _ (fun ridx h3 h4 => by omega)]
        exact hW r2 c2 hr2 (by omega) hz
    obtain ⟨hG2, hW2, hF2⟩ := ih (a + 1) (colRowsFrom g a 0 7 st) (by omega) hG1 hWnew
    refine ⟨hG2, fun r2 c2 h1 h2 hz => hW2 r2 c2 h1 (by omega) hz, ?_⟩
    intro i hf
    rw [hF2 i (fun ridx cidx2 h1 h2 h3 => hf ridx cidx2 h1 (by omega) (by omega)),
      hF1 i (fun ridx h1 h2 => hf ridx a (by omega) (by omega) (by omega))]

lemma colsFrom_K (g : Grid) (r c gid : Nat) (hiso : isolatedCell g r c) :
    ∀ (n a : Nat) (st : SVState), a + n ≤ 7 → c < a →
      svK r c gid st → svG st →
      (∀ r2 c2, r2 < 7 → c2 < a → g r2 c2 = 0 → 0 ≤ st.spotGroups (r2 * 7 + c2)) →
      svK r c gid (colsFrom g a n st) ∧
      svG (colsFrom g a n st) ∧
      (∀ r2 c2, r2 < 7 → c2 < a + n → g r2 c2 = 0 →
        0 ≤ (colsFrom g a n st).spotGroups (r2 * 7 + c2)) := by
  intro n
  induction n with
  | zero =>
    intro a st _ _ hK hG hW
    exact ⟨hK, hG, fun r2 c2 h1 h2 hz => hW r2 c2 h1 (by omega) hz⟩
  | succ n ih =>
    intro a st hle hca hK hG hW
    rw [colsFrom_succ, colBody_eq]
    obtain ⟨hK1, hG1, hW1, hF1⟩ := colRows_K g r c gid hiso a (by omega) 7 0 st (by omega)
      (fun ridx h1 h2 hand => (by omega : ¬(a = c)) hand.2)
      hK hG (fun r2 h _ => absurd h (by omega))
    have hWnew : ∀ r2 c2, r2 < 7 → c2 < a + 1 → g r2 c2 = 0 →
        0 ≤ (colRowsFrom g a 0 7 st).spotGroups (r2 * 7 + c2) := by
      intro r2 c2 hr2 hc2 hz
      by_cases h2 : c2 = a
      · subst h2
        exact hW1 r2 (by omega) hz
      · rw [hF1 _ (fun ridx h3 h4 => by omega)]
        exact hW r2 c2 hr2 (by omega) hz
    obtain ⟨hK2, hG2, hW2⟩ := ih (a + 1) (colRowsFrom g a 0 7 st) (by omega) (by omega)
      hK1 hG1 hWnew
    exact ⟨hK2, hG2, fun r2 c2 h1 h2 hz => hW2 r2 c2 h1 (by omega) hz⟩

lemma colScan_master (g : Grid) (r c : Nat) (hiso : isolatedCell g r c) :
    ∃ gid : Nat, svK r c gid (colScan g) ∧ svG (colScan g) ∧ svW g (colScan g) := by
  have hrlt : r < 7 := hiso.1
  have hclt : c < 7 := hiso.2.1
  have hGinit : svG initSV := by
    intro i
    show (-1 : Int) < ((0 : Nat) : Int)
    norm_num
  obtain ⟨hGA, hWA, _⟩ := colsFrom_WG g c 0 initSV (by omega) hGinit
    (fun r2 c2 _ h _ => absurd h (by omega))
  set stA := colsFrom g 0 c initSV with hstA
  obtain ⟨hGB, hWB, hFB⟩ := colRows_WG g c r 0 stA hGA (fun r2 h _ => absurd h (by omega))
  set stB := colRowsFrom g c 0 r stA with hstB
  have hKC : svK r c stB.groupId (colStep g stB c r) := colStep_est g r c hiso stB hGB
  have hGC : svG (colStep g stB c r) := colStep_G g stB c r hGB
  set stC := colStep g stB c r with hstC
  have hWC : ∀ r2, r2 < r + 1 → g r2 c = 0 → 0 ≤ stC.spotGroups (r2 * 7 + c) := by
    intro r2 hr2 hz
    by_cases h2 : r2 = r
    · subst h2
      rw [hKC.2.1]
      exact_mod_cast Nat.zero_le stB.groupId
    · rw [hstC, colStep_sg_frame g stB c r _ (by omega)]
      exact hWB r2 (by omega) hz
  obtain ⟨hKD, hGD, hWD, hFD⟩ := colRows_K g r c stB.groupId hiso c hclt (6 - r) (r + 1) stC
    (by omega) (fun ridx h1 h2 hand => (by omega : ¬(ridx = r)) hand.1) hKC hGC
    (fun r2 h hz => hWC r2 (by omega) hz)
  set stD := colRowsFrom g c (r + 1) (6 - r) stC with hstD
  have hWD2 : ∀ r2 c2, r2 < 7 → c2 < c + 1 → g r2 c2 = 0 →
      0 ≤ stD.spotGroups (r2 * 7 + c2) := by
    intro r2 c2 hr2 hc2 hz
    by_cases h2 : c2 = c
    · subst h2
      exact hWD r2 (by omega) hz
    · rw [hstD, hFD _ (fun ridx h3 h4 => by omega), hstC,
        colStep_sg_frame g stB c r _ (by omega),
        hstB, hFB _ (fun ridx h3 h4 => by omega)]
      exact hWA r2 c2 hr2 (by omega) hz
  obtain ⟨hKE, hGE, hWE⟩ := colsFrom_K g r c stB.groupId hiso (6 - c) (c + 1) stD
    (by omega) (by omega) hKD hGD hWD2
  have e1 : colsFrom g 0 7 initSV = colsFrom g c (7 - c) stA := by
    have h := colsFrom_split g 0 c (7 - c) initSV
    rw [show c + (7 - c) = 7 from by omega, Nat.zero_add] at h
    exact h
  have e2 : colsFrom g c (7 - c) stA = colsFrom g (c + 1) (6 - c) (colBody g stA c) := by
    rw [show (7 - c) = 1 + (6 - c) from by omega, colsFrom_split g c 1 (6 - c) stA]
    rfl
  have e3 : colBody g stA c = stD := by
    rw [colBody_eq]
    have t1 := colRowsFrom_split g c 0 r (1 + (6 - r)) stA
    rw [show r + (1 + (6 - r)) = 7 from by omega, Nat.zero_add] at t1
    have t2 := colRowsFrom_split g c r 1 (6 - r) stB
    rw [t1, t2]
    rfl
  have efin : colScan g = colsFrom g (c + 1) (6 - c) stD := by
    rw [colScan_eq_colsFrom, e1, e2, e3]
  refine ⟨stB.groupId, ?_, ?_, ?_⟩
  · rw [efin]; exact hKE
  · rw [efin]; exact hGE
  · rw [efin]
    intro r2 c2 h1 h2 hz
    exact hWE r2 c2 h1 (by omega) hz

/-! ### The row walk preserves the isolated singleton group -/

lemma mergeAll_KW (g : Grid) (r c gid : Nat) (st : SVState) (ppos : Nat)
    (toGroup fromGroup : Int)
    (htg : st.spotGroups ppos = toGroup)
    (hto_ne : toGroup ≠ (gid : Int)) (hto_nn : 0 ≤ toGroup)
    (hfrom_ne : fromGroup ≠ (gid : Int)) (hfrom_nn : 0 ≤ fromGroup)
    (hfrom_to : fromGroup ≠ toGroup)
    (hK : svK r c gid st) (hW : svW g st) :
    svK r c gid (mergeAll st ppos toGroup fromGroup) ∧
    svW g (mergeAll st ppos toGroup fromGroup) := by
  obtain ⟨hk1, hk2, hk3, hk4⟩ := hK
  have htoNat_ne : toGroup.toNat ≠ gid := by
    intro h
    apply hto_ne
    rw [← h]
    exact (Int.toNat_of_nonneg hto_nn).symm
  have hfold := @foldl_inv SVState Nat (mergeStep ppos toGroup fromGroup)
    (fun s => s.spotGroups (r * 7 + c) = (gid : Int) ∧ s.groupCounts gid = 1 ∧
      (∀ i, s.spotGroups i = (gid : Int) → i = r * 7 + c) ∧ svW g s ∧
      s.spotGroups ppos = toGroup ∧ s.groupId = st.groupId)
    (List.range 49) st ⟨hk2, hk3, hk4, hW, htg, rfl⟩ ?_
  · obtain ⟨hp1, hp2, hp3, hp4, hp5, hp6⟩ := hfold
    unfold mergeAll
    generalize hg2 : (List.range 49).foldl (mergeStep ppos toGroup fromGroup) st = st2
      at hp1 hp2 hp3 hp4 hp5 hp6 ⊢
    constructor
    · refine ⟨?_, hp1, ?_, hp3⟩
      · show gid < st2.groupId
        omega
      · show updFn st2.groupCounts fromGroup.toNat 0 gid = 1
        have hfromNat_ne : gid ≠ fromGroup.toNat := by
          intro h
          apply hfrom_ne
          rw [h]
          exact (Int.toNat_of_nonneg hfrom_nn).symm
        simp only [updFn, if_neg hfromNat_ne]
        exact hp2
    · exact hp4
  · intro s i _ hP
    obtain ⟨hp1, hp2, hp3, hp4, hp5, hp6⟩ := hP
    unfold mergeStep
    split
    · rename_i hsi
      have hi_ne : i ≠ r * 7 + c := by
        intro h
        subst h
        rw [hp1] at hsi
        exact hfrom_ne hsi.symm
      have hi_ne_ppos : i ≠ ppos := by
        intro h
        subst h
        rw [hp5] at hsi
        exact hfrom_to hsi.symm
      have hne2 : ¬(r * 7 + c = i) := fun h => hi_ne h.symm
      have hne3 : ¬(gid = toGroup.toNat) := fun h => htoNat_ne h.symm
      have hne4 : ¬(ppos = i) := fun h => hi_ne_ppos h.symm
      refine ⟨?_, ?_, ?_, ?_, ?_, hp6⟩
      · show updFn s.spotGroups i (s.spotGroups ppos) (r * 7 + c) = (gid : Int)
        simp only [updFn, if_neg hne2]
        exact hp1
      · show updFn s.groupCounts toGroup.toNat (s.groupCounts toGroup.toNat + 1) gid = 1
        simp only [updFn, if_neg hne3]
        exact hp2
      · intro j hj
        simp only [updFn] at hj
        by_cases h2 : j = i
        · rw [if_pos h2] at hj
          rw [hp5] at hj
          exact absurd hj hto_ne
        · rw [if_neg h2] at hj
          exact hp3 j hj
      · intro r2 c2 h1 h2 hz
        show 0 ≤ updFn s.spotGroups i (s.spotGroups ppos) (r2 * 7 + c2)
        simp only [updFn]
        split
        · rw [hp5]
          exact hto_nn
        · exact hp4 r2 c2 h1 h2 hz
      · show updFn s.spotGroups i (s.spotGroups ppos) ppos = toGroup
        simp only [updFn, if_neg hne4]
        exact hp5
    · exact ⟨hp1, hp2, hp3, hp4, hp5, hp6⟩

lemma rowStep_KW (g : Grid) (r c gid : Nat) (hiso : isolatedCell g r c)
    (st : SVState) (ridx cidx : Nat) (hrb : ridx < 7) (hc1 : 1 ≤ cidx) (hcb : cidx < 7)
    (hK : svK r c gid st) (hW : svW g st) :
    svK r c gid (rowStep g st ridx cidx) ∧ svW g (rowStep g st ridx cidx) := by
  obtain ⟨hrlt, hclt, hopen, hup, hdown, hleft, hright⟩ := hiso
  unfold rowStep linearFromCoord
  split
  · rename_i hz
    split
    · rename_i hzl
      split
      · rename_i hne
        have hpos_ne : ridx * 7 + cidx ≠ r * 7 + c := by
          intro hcontra
          have hcc : cidx = c := by omega
          have hrr : ridx = r := by omega
          subst hcc
          subst hrr
          rcases hleft with h0 | hnzl
          · omega
          · exact hnzl hzl
        have hppos_ne : ridx * 7 + (cidx - 1) ≠ r * 7 + c := by
          intro hcontra
          have hcc2 : cidx = c + 1 := by omega
          have hrr : ridx = r := by omega
          subst hrr
          rw [hcc2] at hz
          rcases hright with h6 | hnzr
          · omega
          · exact hnzr hz
        obtain ⟨hk1, hk2, hk3, hk4⟩ := hK
        have hfrom_ne : st.spotGroups (ridx * 7 + cidx) ≠ (gid : Int) :=
          fun h => hpos_ne (hk4 _ h)
        have hto_ne : st.spotGroups (ridx * 7 + (cidx - 1)) ≠ (gid : Int) :=
          fun h => hppos_ne (hk4 _ h)
        have hto_nn : 0 ≤ st.spotGroups (ridx * 7 + (cidx - 1)) :=
          hW ridx (cidx - 1) hrb (by omega) hzl
        have hfrom_nn : 0 ≤ st.spotGroups (ridx * 7 + cidx) := hW ridx cidx hrb hcb hz
        exact mergeAll_KW g r c gid st (ridx * 7 + (cidx - 1)) _ _ rfl hto_ne hto_nn
          hfrom_ne hfrom_nn hne ⟨hk1, hk2, hk3, hk4⟩ hW
      · exact ⟨hK, hW⟩
    · exact ⟨hK, hW⟩
  · exact ⟨hK, hW⟩

lemma rowScan_KW (g : Grid) (r c gid : Nat) (hiso : isolatedCell g r c) (st : SVState)
    (hK : svK r c gid st) (hW : svW g st) :
    svK r c gid (rowScan g st) ∧ svW g (rowScan g st) := by
  unfold rowScan
  refine @foldl_inv SVState Nat _ (fun s => svK r c gid s ∧ svW g s)
    (List.range 7) st ⟨hK, hW⟩ ?_
  intro s ridx hmem hP
  have hrb : ridx < 7 := List.mem_range.mp hmem
  refine @foldl_inv SVState Nat _ (fun s => svK r c gid s ∧ svW g s)
    (List.range' 1 6) s hP ?_
  intro s2 cidx hmem2 hP2
  obtain ⟨i, hi, hm⟩ := List.mem_range'.mp hmem2
  exact rowStep_KW g r c gid hiso s2 ridx cidx hrb (by omega) (by omega) hP2.1 hP2.2

/-! ### The reporting loop of smallestVoid -/

lemma svFold_le_acc (counts : Nat → Nat) :
    ∀ (l : List Nat) (sm : Nat),
      l.foldl (fun smallest i =>
        if counts i ≠ 0 ∧ counts i < smallest then counts i else smallest) sm ≤ sm := by
  intro l
  induction l with
  | nil => intro sm; exact Nat.le_refl sm
  | cons x xs ih =>
    intro sm
    simp only [List.foldl_cons]
    by_cases hx : counts x ≠ 0 ∧ counts x < sm
    · rw [if_pos hx]
      exact le_trans (ih _) (le_of_lt hx.2)
    · rw [if_neg hx]
      exact ih sm

lemma svFold_le_elem (counts : Nat → Nat) :
    ∀ (l : List Nat) (sm : Nat) (j : Nat), j ∈ l → counts j ≠ 0 →
      l.foldl (fun smallest i =>
        if counts i ≠ 0 ∧ counts i < smallest then counts i else smallest) sm ≤ counts j := by
  intro l
  induction l with
  | nil =>
    intro sm j hmem _
    exact absurd hmem (List.not_mem_nil j)
  | cons x xs ih =>
    intro sm j hmem hcj
    simp only [List.foldl_cons]
    rcases List.mem_cons.mp hmem with h | h
    · subst h
      by_cases hlt : counts j < sm
      · rw [if_pos ⟨hcj, hlt⟩]
        exact svFold_le_acc counts xs (counts j)
      · rw [if_neg (fun hand => hlt hand.2)]
        exact le_trans (svFold_le_acc counts xs sm) (by omega)
    · exact ih _ j h hcj

lemma svFold_ge_one (counts : Nat → Nat) :
    ∀ (l : List Nat) (sm : Nat), 1 ≤ sm →
      1 ≤ l.foldl (fun smallest i =>
        if counts i ≠ 0 ∧ counts i < smallest then counts i else smallest) sm := by
  intro l
  induction l with
  | nil => intro sm h; exact h
  | cons x xs ih =>
    intro sm h
    simp only [List.foldl_cons]
    by_cases hx : counts x ≠ 0 ∧ counts x < sm
    · rw [if_pos hx]
      exact ih _ (by omega)
    · rw [if_neg hx]
      exact ih _ h

lemma smallestVoid_isolated (g : Grid) (r c : Nat) (hiso : isolatedCell g r c) :
    smallestVoid g = 1 := by
  obtain ⟨gid, hK0, hG0, hW0⟩ := colScan_master g r c hiso
  obtain ⟨hK, hW⟩ := rowScan_KW g r c gid hiso (colScan g) hK0 hW0
  obtain ⟨hk1, hk2, hk3, hk4⟩ := hK
  show (List.range (rowScan g (colScan g)).groupId).foldl
      (fun smallest i =>
        if (rowScan g (colScan g)).groupCounts i ≠ 0 ∧
            (rowScan g (colScan g)).groupCounts i < smallest then
          (rowScan g (colScan g)).groupCounts i
        else smallest) sysMaxsize = 1
  have hle := svFold_le_elem (rowScan g (colScan g)).groupCounts
    (List.range (rowScan g (colScan g)).groupId) sysMaxsize gid
    (List.mem_range.mpr hk1) (by rw [hk3]; omega)
  rw [hk3] at hle
  have hge := svFold_ge_one (rowScan g (colScan g)).groupCounts
    (List.range (rowScan g (colScan g)).groupId) sysMaxsize (by norm_num [sysMaxsize])
  omega

/-! ## The claims -/

/-- C1: for every piece and linear position, when the stamp is structurally
successful (the bounding box stays inside the 7x7 board and the
superimposing loop meets no non-zero board cell), place returns true exactly
when smallestVoid on the stamped board is at least MIN_VOID_COUNT = 5, the
smallest piece cell count; when that minimum is smaller, the stamp is rolled
back (the board returns to its prior state) and place returns false. -/
theorem claim_C1 (g : Grid) (p : Piece) (pos : Nat)
    (hin : ¬(7 < pos % 7 + width p ∨ 7 < pos / 7 + height p))
    (hst : (stampCells p (pos % 7) (pos / 7) (cellCoords p) g).isSome = true) :
    ((place g p pos).1 = true ↔
      minVoidCount ≤
        smallestVoid ((stampCells p (pos % 7) (pos / 7) (cellCoords p) g).getD g)) ∧
    (smallestVoid ((stampCells p (pos % 7) (pos / 7) (cellCoords p) g).getD g) <
        minVoidCount → place g p pos = (false, g)) := by
  obtain ⟨h2, hh⟩ := Option.isSome_iff_exists.mp hst
  rw [hh]
  simp only [Option.getD_some]
  have hplace : place g p pos =
      if smallestVoid h2 < minVoidCount then (false, removeGrid h2 p pos)
      else (true, h2) := by
    simp only [place]
    rw [if_neg hin, hh]
  have hback : removeGrid h2 p pos = g :=
    removeCells_stampCells p (pos % 7) (pos / 7) (cellCoords p) g h2 hh
  by_cases hv : smallestVoid h2 < minVoidCount
  · rw [hplace, if_pos hv]
    refine ⟨⟨fun h => absurd h (by simp), fun h => absurd h (by omega)⟩, fun _ => ?_⟩
    rw [hback]
  · rw [hplace, if_neg hv]
    exact ⟨⟨fun _ => by omega, fun _ => rfl⟩, fun h => absurd h hv⟩

set_option maxRecDepth 400000 in
theorem claim_C1_witness :
    ((place zeroGrid piece8 0).1 = true ↔
      minVoidCount ≤
        smallestVoid ((stampCells piece8 (0 % 7) (0 / 7) (cellCoords piece8) zeroGrid).getD
          zeroGrid)) ∧
    (smallestVoid ((stampCells piece8 (0 % 7) (0 / 7) (cellCoords piece8) zeroGrid).getD
        zeroGrid) < minVoidCount → place zeroGrid piece8 0 = (false, zeroGrid)) :=
  claim_C1 zeroGrid piece8 0 (by decide) (by decide)

/-- C2: place never mutates the board when it returns false, in all three
rejection cases: bounding box outside the board, overlap found while
stamping, and the void-pruning failure after a full stamp. -/
theorem claim_C2 (g : Grid) (p : Piece) (pos : Nat)
    (h : (place g p pos).1 = false) : (place g p pos).2 = g :=
  place_false_eq g p pos h

set_option maxRecDepth 400000 in
theorem claim_C2_witness : (place zeroGrid piece1 5).2 = zeroGrid :=
  claim_C2 zeroGrid piece1 5 (by decide)

/-- C3: a successful place followed by remove of the same piece at the same
position restores the grid to exactly its state before the place call. -/
theorem claim_C3 (g : Grid) (p : Piece) (pos : Nat)
    (h : (place g p pos).1 = true) :
    removeGrid (place g p pos).2 p pos = g :=
  place_true_remove g p pos h

set_option maxRecDepth 400000 in
theorem claim_C3_witness :
    removeGrid (place zeroGrid piece8 0).2 piece8 0 = zeroGrid :=
  claim_C3 zeroGrid piece8 0 (by decide)

/-- C4: when the search returns false, the board is exactly its state from
before the search began, and in particular (the board being a date board,
whose cells are all open or blocked) every cell still holds 0 or 9. -/
theorem claim_C4 (f : Nat) (g : Grid) (p : Piece)
    (hsome : (fitFuel f g p).isSome = true)
    (hfail : ((fitFuel f g p).getD (true, g)).1 = false)
    (hcells : ∀ r, r < 7 → ∀ c, c < 7 → g r c = 0 ∨ g r c = 9) :
    ((fitFuel f g p).getD (true, g)).2 = g ∧
    (∀ r, r < 7 → ∀ c, c < 7 →
      ((fitFuel f g p).getD (true, g)).2 r c = 0 ∨
      ((fitFuel f g p).getD (true, g)).2 r c = 9) := by
  obtain ⟨res, hr⟩ := Option.isSome_iff_exists.mp hsome
  obtain ⟨b, g2⟩ := res
  rw [hr] at hfail ⊢
  simp only [Option.getD_some] at hfail ⊢
  cases b
  · have heq := fitFuel_false f g p g2 hr
    subst heq
    exact ⟨rfl, hcells⟩
  · simp at hfail

set_option maxRecDepth 400000 in
theorem claim_C4_witness :
    ((fitFuel 1 nineGrid piece1).getD (true, nineGrid)).2 = nineGrid ∧
    (∀ r, r < 7 → ∀ c, c < 7 →
      ((fitFuel 1 nineGrid piece1).getD (true, nineGrid)).2 r c = 0 ∨
      ((fitFuel 1 nineGrid piece1).getD (true, nineGrid)).2 r c = 9) :=
  claim_C4 1 nineGrid piece1 (by decide) (by decide) (fun r _ c _ => Or.inr rfl)

/-- C5: for every catalog piece (all are constructed in a rotation-index-0
state), four successive rotate calls return the piece to rotation index 0
with its matrix, width and height equal to those of its saved base matrix,
and every rotate call advances the rotation index by 1 modulo 4, returning
the new index. -/
theorem claim_C5 (p : Piece) (hp : p ∈ pieces) :
    (rotate (rotate (rotate (rotate p)))).rows = p.rows ∧
    (rotate (rotate (rotate (rotate p)))).rows = p.startRows ∧
    width (rotate (rotate (rotate (rotate p)))) = width p ∧
    height (rotate (rotate (rotate (rotate p)))) = height p ∧
    (rotate (rotate (rotate (rotate p)))).rotation = 0 ∧
    (∀ q : Piece, (rotate q).rotation = (q.rotation + 1) % 4) := by
  have hrot : ∀ q : Piece, (rotate q).rotation = (q.rotation + 1) % 4 := fun q => rfl
  fin_cases hp <;>
    exact ⟨by decide, by decide, by decide, by decide, by decide, hrot⟩

theorem claim_C5_witness :
    (rotate (rotate (rotate (rotate piece2)))).rows = piece2.rows ∧
    (rotate (rotate (rotate (rotate piece2)))).rows = piece2.startRows ∧
    width (rotate (rotate (rotate (rotate piece2)))) = width piece2 ∧
    height (rotate (rotate (rotate (rotate piece2)))) = height piece2 ∧
    (rotate (rotate (rotate (rotate piece2)))).rotation = 0 ∧
    (∀ q : Piece, (rotate q).rotation = (q.rotation + 1) % 4) :=
  claim_C5 piece2 (by decide)

/-- C6 (counterexample): the date 2/29 is not rejected: setDate succeeds on
it (no failure of any kind, where a failure could only be an out-of-bounds
write, modelled as none) and silently marks the in-bounds month cell (0,1)
and day cell (6,0). -/
theorem claim_C6_counterexample :
    (setDate 2 29 baseGrid).isSome = true ∧
    ((setDate 2 29 baseGrid).getD baseGrid) 0 1 = 9 ∧
    ((setDate 2 29 baseGrid).getD baseGrid) 6 0 = 9 := by
  refine ⟨?_, ?_, ?_⟩ <;> decide

/-- C6 (amended): board construction never fails: setDate performs no
validation and raises nothing; for every month 1..12 and day 1..31 the two
date cells are in bounds and are marked silently.  There is no
ConfigurationError in the code; an impossible date such as 2/29 of a
non-leap year can only be rejected upstream of Board, by datetime parsing. -/
theorem claim_C6 (g : Grid) (month day : Nat) (h1 : 1 ≤ month) (h2 : month ≤ 12)
    (h3 : 1 ≤ day) (h4 : day ≤ 31) : (setDate month day g).isSome = true :=
  setDate_isSome g month day h1 h2 h3 h4

theorem claim_C6_witness : (setDate 2 29 zeroGrid).isSome = true :=
  claim_C6 zeroGrid 2 29 (by decide) (by decide) (by decide) (by decide)

/-- C7 (the code evaluated at a failing input): the freshly constructed
board for the date 1/1 holds only open cells and blocked markers 9 — no
cell is occupied by two pieces or by a piece over a blocked cell — yet
isBoardValid returns false, because the scan flags every value above 1,
including the blocked marker 9 itself, as an overlap. -/
theorem claim_C7_eval :
    isBoardValid boardJan1 = false ∧
    (∀ r, r < 7 → ∀ c, c < 7 → boardJan1 r c = 0 ∨ boardJan1 r c = 9) := by
  refine ⟨?_, ?_⟩ <;> decide

set_option maxRecDepth 400000 in
/-- C8: smallestVoid returns 49 on the all-open 7x7 board, and returns 1 on
every board whose non-zero cells fully isolate a single open cell. -/
theorem claim_C8 :
    smallestVoid zeroGrid = 49 ∧
    (∀ (g : Grid) (r c : Nat), isolatedCell g r c → smallestVoid g = 1) := by
  refine ⟨by decide, ?_⟩
  intro g r c hiso
  exact smallestVoid_isolated g r c hiso

theorem claim_C8_witness : isolatedCell isoGrid 3 3 ∧ smallestVoid isoGrid = 1 :=
  ⟨by refine ⟨by omega, by omega, rfl, ?_, ?_, ?_, ?_⟩ <;> right <;> decide,
    claim_C8.2 isoGrid 3 3
      (by refine ⟨by omega, by omega, rfl, ?_, ?_, ?_, ?_⟩ <;> right <;> decide)⟩

/-- C9: the search terminates within the catalog depth bound: for every
catalog piece, fitFuel with fuel equal to the number of catalog pieces from
it onwards (9 - id, at most 8) never exhausts its fuel, because nextPiece
strictly advances through the catalog by id order and returns none after
the last piece. -/
theorem claim_C9 (p : Piece) (hp : p ∈ pieces) :
    (∀ g : Grid, (fitFuel (9 - p.id) g p).isSome = true) ∧
    ((nextPiece p).map Piece.id =
      if p.id = pieces.length then none else some (p.id + 1)) ∧
    (nextPiece p = none ↔ p.id = pieces.length) := by
  fin_cases hp
  · exact ⟨fitFuel_piece1, by decide, by decide⟩
  · exact ⟨fitFuel_piece2, by decide, by decide⟩
  · exact ⟨fitFuel_piece3, by decide, by decide⟩
  · exact ⟨fitFuel_piece4, by decide, by decide⟩
  · exact ⟨fitFuel_piece5, by decide, by decide⟩
  · exact ⟨fitFuel_piece6, by decide, by decide⟩
  · exact ⟨fitFuel_piece7, by decide, by decide⟩
  · exact ⟨fitFuel_piece8, by decide, by decide⟩

theorem claim_C9_witness :
    (∀ g : Grid, (fitFuel (9 - piece1.id) g piece1).isSome = true) ∧
    ((nextPiece piece1).map Piece.id =
      if piece1.id = pieces.length then none else some (piece1.id + 1)) ∧
    (nextPiece piece1 = none ↔ piece1.id = pieces.length) :=
  claim_C9 piece1 (by decide)

/-- C10: for every month 1..12 and day 1..31, the two cells marked by
setDate are in bounds: the month goes to row (month-1)/6 < 2 and column
(month-1)%6 < 6, the day goes to row 2 + (day-1)/7 between 2 and 6 and
column (day-1)%7 < 7, so marking the date never writes outside the grid
(setDate succeeds on every such date). -/
theorem claim_C10 (month day : Nat) (h1 : 1 ≤ month) (h2 : month ≤ 12)
    (h3 : 1 ≤ day) (h4 : day ≤ 31) (g : Grid) :
    ((month - 1) / 6 < 2 ∧ (month - 1) % 6 < 6 ∧
      2 ≤ 2 + (day - 1) / 7 ∧ 2 + (day - 1) / 7 < 7 ∧ (day - 1) % 7 < 7) ∧
    (setDate month day g).isSome = true :=
  ⟨by omega, setDate_isSome g month day h1 h2 h3 h4⟩

theorem claim_C10_witness :
    ((7 - 1) / 6 < 2 ∧ (7 - 1) % 6 < 6 ∧
      2 ≤ 2 + (4 - 1) / 7 ∧ 2 + (4 - 1) / 7 < 7 ∧ (4 - 1) % 7 < 7) ∧
    (setDate 7 4 zeroGrid).isSome = true :=
  claim_C10 7 4 (by decide) (by decide) (by decide) (by decide) zeroGrid

end CalPuz
